import Mathlib

/-!
Verification development for the Snap7-to-Dynamixel jaw bridge
(src/services/jaw_snap7_dynamixel.py).

The Python program is shallowly embedded: Python floats are modelled by
exact rationals, Python ints by the integers.  Each definition below mirrors
one piece of the source; the per-cycle body of the main loop (lines 208-302)
becomes the pure step function `cycle` on an explicit `GateState`, and
multi-cycle behaviour is the fold `runCycles`.  Fallible reads from the PLC
and from the servo are modelled as `Option` inputs to a cycle.
-/

/-- Embedding of Python's `round` (banker's rounding, ties to even) on the
    exact rational model of a float. -/
def pyRound (q : ℚ) : ℤ :=
  if q - ⌊q⌋ < 1/2 then ⌊q⌋
  else if 1/2 < q - ⌊q⌋ then ⌊q⌋ + 1
  else if ⌊q⌋ % 2 = 0 then ⌊q⌋ else ⌊q⌋ + 1

/-- Embedding of Python's `int(...)` on a float: truncation toward zero. -/
def pyInt (q : ℚ) : ℤ :=
  if q < 0 then ⌈q⌉ else ⌊q⌋

/-- Embedding of Python's `%` on floats with a positive modulus:
    the representative in `[0, b)`. -/
def qmod (a b : ℚ) : ℚ :=
  a - b * ⌊a / b⌋

/-- Embedding of `clamp` (src line 63-64):
    `lo if x < lo else hi if x > hi else x`. -/
def clamp {α : Type} [LinearOrder α] (x lo hi : α) : α :=
  if x < lo then lo else if hi < x then hi else x

/-- Embedding of `deg_to_tick` (src lines 66-68):
    `int(round((deg % 360.0) * (TICKS_PER_REV / 360.0)))` with
    `TICKS_PER_REV = 4096.0`. -/
def deg_to_tick (deg : ℚ) : ℤ :=
  pyRound ((qmod deg 360) * (4096 / 360))

/-- Embedding of `tick_to_deg` (src lines 70-71):
    `(ticks % 4096) * 360.0 / TICKS_PER_REV`. -/
def tick_to_deg (ticks : ℤ) : ℚ :=
  ((ticks % 4096 : ℤ) : ℚ) * 360 / 4096

/-- The configuration surface of the bridge that the embedded fragment
    depends on (argparse defaults in src lines 111-117). -/
structure Config where
  min_deg : ℚ
  max_deg : ℚ
  vel_floor : ℤ
  acc_floor : ℤ
  prof_vel_default : ℤ
  prof_acc_default : ℤ
deriving DecidableEq

/-- `sw_min = min(args.min_deg, args.max_deg)` (src line 196). -/
def sw_min (cfg : Config) : ℚ := min cfg.min_deg cfg.max_deg

/-- `sw_max = max(args.min_deg, args.max_deg)` (src line 197). -/
def sw_max (cfg : Config) : ℚ := max cfg.min_deg cfg.max_deg

/-- Discovered hardware limits (src lines 172-183). -/
structure Limits where
  vel_lim : ℤ
  acc_lim : ℤ
  min_ticks : ℤ
  max_ticks : ℤ
deriving DecidableEq

/-- Result of the four limit-register reads during discovery; `none` models
    `rc != COMM_SUCCESS` for that read. -/
structure DiscoveryReads where
  vel : Option ℤ
  acc : Option ℤ
  maxp : Option ℤ
  minp : Option ℤ
deriving DecidableEq

/-- Embedding of hardware limit discovery (src lines 172-183): velocity and
    accel limits fall back per-field to the configured defaults; if either
    position-limit read fails, both position limits become the fixed pair
    (0, 4095); finally min/max are swapped when inverted. -/
def discover (cfg : Config) (r : DiscoveryReads) : Limits :=
  let vel_lim := r.vel.getD cfg.prof_vel_default
  let acc_lim := r.acc.getD cfg.prof_acc_default
  let p : ℤ × ℤ :=
    match r.maxp, r.minp with
    | some mx, some mn => (mn, mx)
    | _, _ => (0, 4095)
  let q : ℤ × ℤ := if p.2 < p.1 then (p.2, p.1) else p
  ⟨vel_lim, acc_lim, q.1, q.2⟩

/-- One decoded command buffer (src lines 218-223). -/
structure Command where
  pos_sp : ℤ
  vel_sp : ℤ
  acc_sp : ℤ
  invert : Bool
  enable : Bool
  seq : ℤ
deriving DecidableEq

/-- The command decoded from the substituted `bytes(12)` buffer after a PLC
    read failure (src line 216): all fields zero / false. -/
def zeroCommand : Command := ⟨0, 0, 0, false, false, 0⟩

/-- The triple written to the servo when a command is applied. -/
structure ActuatorTarget where
  goal_ticks : ℤ
  prof_vel : ℤ
  prof_acc : ℤ
deriving DecidableEq

/-- Embedding of the setpoint scaling in the apply branch (src lines
    236-248): clamped normalization to [0,1], degree interpolation with
    optional inversion, tick conversion and hardware clamp, and
    floor-to-limit interpolation for the profile values (the Python source
    truncates the interpolated float with `int(...)` before clamping). -/
def scaleCmd (cfg : Config) (lim : Limits) (cmd : Command) : ActuatorTarget :=
  let pos_u : ℚ := ((clamp cmd.pos_sp 0 1000 : ℤ) : ℚ) / 1000
  let vel_u : ℚ := ((clamp cmd.vel_sp 0 1000 : ℤ) : ℚ) / 1000
  let acc_u : ℚ := ((clamp cmd.acc_sp 0 1000 : ℤ) : ℚ) / 1000
  let deg : ℚ :=
    if cmd.invert then sw_min cfg + (1 - pos_u) * (sw_max cfg - sw_min cfg)
    else sw_min cfg + pos_u * (sw_max cfg - sw_min cfg)
  let ticks : ℤ := clamp (deg_to_tick deg) lim.min_ticks lim.max_ticks
  let prof_vel : ℤ :=
    clamp (pyInt ((cfg.vel_floor : ℚ) + vel_u * ((lim.vel_lim : ℚ) - (cfg.vel_floor : ℚ))))
      cfg.vel_floor lim.vel_lim
  let prof_acc : ℤ :=
    clamp (pyInt ((cfg.acc_floor : ℚ) + acc_u * ((lim.acc_lim : ℚ) - (cfg.acc_floor : ℚ))))
      cfg.acc_floor lim.acc_lim
  ⟨ticks, prof_vel, prof_acc⟩

/-- The position fraction of the feedback normalization (src lines 274-277):
    0 when the software range is degenerate, otherwise the clamped affine
    fraction within the range. -/
def posFrac (cfg : Config) (d : ℚ) : ℚ :=
  if sw_min cfg < sw_max cfg then
    (clamp d (sw_min cfg) (sw_max cfg) - sw_min cfg) / (sw_max cfg - sw_min cfg)
  else 0

/-- Embedding of the position-feedback normalization (src lines 272-280). -/
def normalizePos (cfg : Config) (invert : Bool) (pos_fb_ticks : ℤ) : ℤ :=
  let u0 := posFrac cfg (tick_to_deg pos_fb_ticks)
  let u := if invert then 1 - u0 else u0
  clamp (pyRound (u * 1000)) 0 1000

/-- Embedding of the velocity-feedback normalization (src lines 268-270):
    absolute value, division by `max(1, vel_lim)`, rescale to 0..1000. -/
def normalizeVel (lim : Limits) (raw : ℤ) : ℤ :=
  clamp (pyRound (((|raw| : ℤ) : ℚ) / ((max 1 lim.vel_lim : ℤ) : ℚ) * 1000)) 0 1000

/-- Process state surviving from one loop iteration to the next
    (src lines 203-205). -/
structure GateState where
  torque_enabled : Bool
  last_seq : Option ℤ
deriving DecidableEq

/-- The state at entry of the main loop (src lines 204-205):
    `last_seq = None`, `torque_enabled = True`. -/
def initState : GateState := ⟨true, none⟩

/-- External inputs of one loop iteration: the command-buffer read
    (`none` models a PLC read exception, src lines 212-216) and the two
    feedback register reads (`none` models `rc != COMM_SUCCESS`,
    src lines 260-266). -/
structure CycleInput where
  cmd_read : Option Command
  pos_read : Option ℤ
  vel_read : Option ℤ
deriving DecidableEq

/-- Observable effects of one loop iteration: the torque writes issued
    (in order; `true` is torque-on), the applied target if the command was
    accepted, and the status fields written back to the PLC. -/
structure CycleOutput where
  torque_writes : List Bool
  applied : Option ActuatorTarget
  jaw_pos_fb : ℤ
  vel_fb_scaled : ℤ
  ack_seq : ℤ
  hw_ok : Bool
deriving DecidableEq

/-- Embedding of one iteration of the main loop (src lines 208-296):
    command read with zero-buffer substitution on failure, torque gating,
    novelty-gated apply, feedback reads with zero substitution on failure,
    normalization, and the status fields. -/
def cycle (cfg : Config) (lim : Limits) (st : GateState) (inp : CycleInput) :
    GateState × CycleOutput :=
  let cmd := inp.cmd_read.getD zeroCommand
  let w1 : List Bool := if !cmd.enable && st.torque_enabled then [false] else []
  let te1 : Bool := if !cmd.enable && st.torque_enabled then false else st.torque_enabled
  let w2 : List Bool := w1 ++ (if cmd.enable && !te1 then [true] else [])
  let te2 : Bool := if cmd.enable && !te1 then true else te1
  let novel : Bool :=
    match st.last_seq with
    | none => true
    | some s => s != cmd.seq
  let applied : Option ActuatorTarget :=
    if cmd.enable && novel then some (scaleCmd cfg lim cmd) else none
  let last2 : Option ℤ :=
    if cmd.enable && novel then some cmd.seq else st.last_seq
  let jaw_pos_fb := normalizePos cfg cmd.invert (inp.pos_read.getD 0)
  let vel_fb_scaled := normalizeVel lim (inp.vel_read.getD 0)
  let hw_ok := inp.pos_read.isSome && inp.vel_read.isSome && te2
  (⟨te2, last2⟩, ⟨w2, applied, jaw_pos_fb, vel_fb_scaled, last2.getD 0, hw_ok⟩)

/-- Running the loop over a list of per-cycle inputs. -/
def runCycles (cfg : Config) (lim : Limits) (st : GateState) :
    List CycleInput → GateState × List CycleOutput
  | [] => (st, [])
  | i :: rest =>
    let s := cycle cfg lim st i
    let r := runCycles cfg lim s.1 rest
    (r.1, s.2 :: r.2)

/-- Number of `set_torque(true)` writes in a trace. -/
def torqueOnCount (outs : List CycleOutput) : ℕ :=
  outs.foldr (fun o n => o.torque_writes.count true + n) 0

/-- Number of `set_torque(false)` writes in a trace. -/
def torqueOffCount (outs : List CycleOutput) : ℕ :=
  outs.foldr (fun o n => o.torque_writes.count false + n) 0

/-- Number of cycles in a trace that issued a goal-position write. -/
def goalWriteCount (outs : List CycleOutput) : ℕ :=
  outs.countP (fun o => o.applied.isSome)

/-- The argparse default configuration (src lines 111-117):
    degrees 200..245, floors 1, profile defaults 50000 / 30000. -/
def defaultCfg : Config := ⟨200, 245, 1, 1, 50000, 30000⟩

/-- Limits as discovered when every read succeeds with the conservative
    full range, matching the fallback values of src lines 173-180. -/
def defaultLimits : Limits := ⟨50000, 30000, 0, 4095⟩

/-- Goal-position formula as the specification words it: `round(((range.min +
    u_pos*(range.max-range.min)) mod 360) * ticks_per_rev / 360)` clamped into
    the position limits, with `u_pos` replaced by `1 - u_pos` when invert is
    set, and `u_pos` the clamped-to-[0,1000] setpoint divided by 1000. -/
def specGoalTicks (cfg : Config) (lim : Limits) (cmd : Command) : ℤ :=
  let u0 : ℚ := clamp ((cmd.pos_sp : ℚ)) 0 1000 / 1000
  let u : ℚ := if cmd.invert then 1 - u0 else u0
  clamp (pyRound ((qmod (sw_min cfg + u * (sw_max cfg - sw_min cfg)) 360) * (4096 / 360)))
    lim.min_ticks lim.max_ticks

/-- The linear interpolation `floor + u * (hw_limit - floor)` of the profile
    mapping, with `u` the clamped-to-[0,1000] setpoint divided by 1000,
    before any truncation or clamping. -/
def specLinear (fl hw sp : ℤ) : ℚ :=
  (fl : ℚ) + (clamp ((sp : ℚ)) 0 1000 / 1000) * ((hw : ℚ) - (fl : ℚ))

/-- Profile value exactly as the specification words it: the linear
    interpolation clamped into `[floor, hw_limit]`, with no truncation to an
    integer.  Used to compare the claimed formula with the code. -/
def specProfileVal (fl hw sp : ℤ) : ℚ :=
  clamp (specLinear fl hw sp) (fl : ℚ) (hw : ℚ)

/-- The position quantization error of the tick conversion, expressed on the
    0..1000 feedback scale: half a tick (`(360/4096)/2` degrees) as a fraction
    of the software range, rescaled by 1000, plus 1/2 for the final integer
    rounding of the feedback value. -/
def posQuantErr (cfg : Config) : ℚ :=
  1000 * ((360 / 4096) / 2) / (sw_max cfg - sw_min cfg) + 1/2

/-! ### Basic facts about the numeric helpers -/

theorem clamp_eq_self {α : Type} [LinearOrder α] {x lo hi : α}
    (h1 : lo ≤ x) (h2 : x ≤ hi) : clamp x lo hi = x := by
  unfold clamp
  rw [if_neg (not_lt.mpr h1), if_neg (not_lt.mpr h2)]

theorem le_clamp {α : Type} [LinearOrder α] {lo hi : α} (x : α)
    (h : lo ≤ hi) : lo ≤ clamp x lo hi := by
  unfold clamp
  split_ifs with h1 h2
  · exact le_refl lo
  · exact h
  · exact le_of_not_lt h1

theorem clamp_le {α : Type} [LinearOrder α] {lo hi : α} (x : α)
    (h : lo ≤ hi) : clamp x lo hi ≤ hi := by
  unfold clamp
  split_ifs with h1 h2
  · exact h
  · exact le_refl hi
  · exact le_of_not_lt h2

theorem clamp_clamp {α : Type} [LinearOrder α] (x lo hi : α) (h : lo ≤ hi) :
    clamp (clamp x lo hi) lo hi = clamp x lo hi :=
  clamp_eq_self (le_clamp x h) (clamp_le x h)

theorem clamp_dist {α : Type} [LinearOrderedAddCommGroup α] {lo hi d : α} (x : α)
    (h1 : lo ≤ d) (h2 : d ≤ hi) : |clamp x lo hi - d| ≤ |x - d| := by
  unfold clamp
  split_ifs with ha hb
  · have e1 : |lo - d| = d - lo := by
      rw [abs_sub_comm]; exact abs_of_nonneg (sub_nonneg.mpr h1)
    have e2 : |x - d| = d - x := by
      rw [abs_sub_comm]
      exact abs_of_nonneg (sub_nonneg.mpr (le_of_lt (lt_of_lt_of_le ha h1)))
    rw [e1, e2]
    exact sub_le_sub_left (le_of_lt ha) d
  · have e1 : |hi - d| = hi - d := abs_of_nonneg (sub_nonneg.mpr h2)
    have e2 : |x - d| = x - d :=
      abs_of_nonneg (sub_nonneg.mpr (le_of_lt (lt_of_le_of_lt h2 hb)))
    rw [e1, e2]
    exact sub_le_sub_right (le_of_lt hb) d
  · exact le_refl _

theorem clamp_intCast (x lo hi : ℤ) :
    ((clamp x lo hi : ℤ) : ℚ) = clamp (x : ℚ) (lo : ℚ) (hi : ℚ) := by
  unfold clamp
  by_cases h1 : x < lo
  · have h1' : (x : ℚ) < (lo : ℚ) := by exact_mod_cast h1
    rw [if_pos h1, if_pos h1']
  · have h1' : ¬ ((x : ℚ) < (lo : ℚ)) := fun hc => h1 (by exact_mod_cast hc)
    by_cases h2 : hi < x
    · have h2' : (hi : ℚ) < (x : ℚ) := by exact_mod_cast h2
      rw [if_neg h1, if_pos h2, if_neg h1', if_pos h2']
    · have h2' : ¬ ((hi : ℚ) < (x : ℚ)) := fun hc => h2 (by exact_mod_cast hc)
      rw [if_neg h1, if_neg h2, if_neg h1', if_neg h2']

theorem pyRound_sub_le (q : ℚ) : |(pyRound q : ℚ) - q| ≤ 1/2 := by
  have hf1 : (⌊q⌋ : ℚ) ≤ q := Int.floor_le q
  have hf2 : q < ⌊q⌋ + 1 := Int.lt_floor_add_one q
  unfold pyRound
  split_ifs with h1 h2 h3
  · rw [abs_le]; constructor <;> linarith
  · rw [abs_le]; push_cast; constructor <;> linarith
  · rw [abs_le]; constructor <;> linarith
  · rw [abs_le]; push_cast; constructor <;> linarith

theorem pyRound_eval_lo {q : ℚ} {n : ℤ} (h1 : (n : ℚ) ≤ q) (h2 : q < (n : ℚ) + 1/2) :
    pyRound q = n := by
  have hf : ⌊q⌋ = n := Int.floor_eq_iff.mpr ⟨h1, by push_cast; linarith⟩
  unfold pyRound
  rw [hf, if_pos (by linarith)]

theorem pyRound_eval_hi {q : ℚ} {n : ℤ} (h1 : (n : ℚ) + 1/2 < q) (h2 : q < (n : ℚ) + 1) :
    pyRound q = n + 1 := by
  have hf : ⌊q⌋ = n := Int.floor_eq_iff.mpr ⟨by linarith, by push_cast; linarith⟩
  unfold pyRound
  rw [hf, if_neg (by linarith), if_pos (by linarith)]

theorem pyInt_eval {q : ℚ} {n : ℤ} (h0 : 0 ≤ n) (h1 : (n : ℚ) ≤ q) (h2 : q < (n : ℚ) + 1) :
    pyInt q = n := by
  have hq : ¬ q < 0 := not_lt.mpr (le_trans (by exact_mod_cast h0) h1)
  unfold pyInt
  rw [if_neg hq]
  exact Int.floor_eq_iff.mpr ⟨h1, by push_cast; linarith⟩

theorem qmod_eq_self {a b : ℚ} (hb : 0 < b) (h0 : 0 ≤ a) (h1 : a < b) :
    qmod a b = a := by
  have hz : ⌊a / b⌋ = 0 := by
    apply Int.floor_eq_iff.mpr
    refine ⟨by simpa using div_nonneg h0 hb.le, ?_⟩
    push_cast
    simpa using (div_lt_one hb).mpr h1
  unfold qmod
  rw [hz]
  ring

theorem qmod_shift {a b : ℚ} (hb : 0 < b) (h0 : b ≤ a) (h1 : a < 2 * b) :
    qmod a b = a - b := by
  have hz : ⌊a / b⌋ = 1 := by
    apply Int.floor_eq_iff.mpr
    constructor
    · push_cast; rw [le_div_iff hb]; linarith
    · push_cast; rw [div_lt_iff hb]; linarith
  unfold qmod
  rw [hz]
  ring

/-! ### Shared facts about one loop iteration -/

theorem cycle_torque_spec (cfg : Config) (lim : Limits) (st : GateState)
    (inp : CycleInput) (cmd : Command) (h : inp.cmd_read = some cmd) :
    (cycle cfg lim st inp).1.torque_enabled = cmd.enable ∧
    (cycle cfg lim st inp).2.torque_writes =
      (if st.torque_enabled = cmd.enable then [] else [cmd.enable]) := by
  cases hte : st.torque_enabled <;> cases hen : cmd.enable <;>
    simp [cycle, h, hte, hen]

theorem cycle_last_keep (cfg : Config) (lim : Limits) (st : GateState) (inp : CycleInput) :
    (cycle cfg lim st inp).1.last_seq = some ((inp.cmd_read.getD zeroCommand).seq) ∨
    (cycle cfg lim st inp).1.last_seq = st.last_seq := by
  dsimp only [cycle]
  split
  · exact Or.inl rfl
  · exact Or.inr rfl

/-! ### C1 -/

/-- C1, amended.  On a command-source read failure the loop substitutes an
    all-zero command buffer, so `enable` reads as false: the
    last-applied-sequence and the goal are indeed left unchanged (no command
    is applied) and the loop continues, but the torque state is NOT left
    unchanged — if torque was enabled, a `set_torque(false)` write is issued
    and `torque_enabled` becomes false. -/
theorem C1_cmd_read_fail_amended (cfg : Config) (lim : Limits) (st : GateState)
    (inp : CycleInput) (h : inp.cmd_read = none) :
    (cycle cfg lim st inp).1.last_seq = st.last_seq ∧
    (cycle cfg lim st inp).2.applied = none ∧
    (cycle cfg lim st inp).1.torque_enabled = false ∧
    (cycle cfg lim st inp).2.torque_writes =
      (if st.torque_enabled then [false] else []) := by
  cases hte : st.torque_enabled <;> simp [cycle, h, hte, zeroCommand]

/-- C1, witness: the amended theorem applied to a concrete failed-read cycle
    from a torque-disabled state with a previously applied sequence. -/
theorem C1_cmd_read_fail_amended_witness :
    (cycle defaultCfg defaultLimits ⟨false, some 5⟩ ⟨none, some 10, some 10⟩).1.last_seq = some 5
    ∧ (cycle defaultCfg defaultLimits ⟨false, some 5⟩ ⟨none, some 10, some 10⟩).2.applied = none
    ∧ (cycle defaultCfg defaultLimits ⟨false, some 5⟩ ⟨none, some 10, some 10⟩).1.torque_enabled = false
    ∧ (cycle defaultCfg defaultLimits ⟨false, some 5⟩ ⟨none, some 10, some 10⟩).2.torque_writes = [] := by
  have h := C1_cmd_read_fail_amended defaultCfg defaultLimits ⟨false, some 5⟩
    ⟨none, some 10, some 10⟩ rfl
  simpa using h

/-- C1, counterexample to the claim as stated: at loop entry (torque enabled)
    a failed command read does NOT leave the gate state and the actuator's
    torque unchanged — `torque_enabled` flips and a torque write is issued. -/
theorem C1_cmd_read_fail_counterexample :
    (cycle defaultCfg defaultLimits initState ⟨none, some 0, some 0⟩).1.torque_enabled
        ≠ initState.torque_enabled ∧
    (cycle defaultCfg defaultLimits initState ⟨none, some 0, some 0⟩).2.torque_writes ≠ [] := by
  constructor <;> simp [cycle, initState, zeroCommand]

/-! ### C3 -/

/-- C3.  A command is applied in a cycle iff `enable` is true and the last
    applied sequence is unset or differs from the command's sequence; and for
    two consecutive cycles observing enabled commands with the same sequence,
    novel at the first observation, exactly one goal-position write is issued. -/
theorem C3_dedup_novelty (cfg : Config) (lim : Limits) (st : GateState)
    (i1 i2 : CycleInput) (c1 c2 : Command)
    (h1 : i1.cmd_read = some c1) (h2 : i2.cmd_read = some c2) :
    ((cycle cfg lim st i1).2.applied.isSome = true ↔
      (c1.enable = true ∧ (st.last_seq = none ∨ st.last_seq ≠ some c1.seq)))
    ∧ (c1.enable = true → c2.enable = true → c2.seq = c1.seq →
        (st.last_seq = none ∨ st.last_seq ≠ some c1.seq) →
        goalWriteCount (runCycles cfg lim st [i1, i2]).2 = 1) := by
  constructor
  · cases hen : c1.enable <;> cases hls : st.last_seq <;>
      simp [cycle, h1, hen, hls, bne_iff_ne]
  · intro he1 he2 hseq hnov
    cases hls : st.last_seq with
    | none =>
      simp [runCycles, cycle, goalWriteCount, h1, h2, he1, he2, hseq, hls]
    | some s =>
      have hsne : s ≠ c1.seq := by
        rcases hnov with hn | hn
        · rw [hls] at hn; exact absurd hn (by simp)
        · rw [hls] at hn; simpa using hn
      simp [runCycles, cycle, goalWriteCount, h1, h2, he1, he2, hseq, hls, hsne]

/-- C3, witness: a fresh enabled command applies, and repeating it in the next
    cycle produces exactly one goal write across the two cycles. -/
theorem C3_dedup_novelty_witness :
    (cycle defaultCfg defaultLimits initState
      ⟨some ⟨0, 0, 0, false, true, 7⟩, some 0, some 0⟩).2.applied.isSome = true ∧
    goalWriteCount (runCycles defaultCfg defaultLimits initState
      [⟨some ⟨0, 0, 0, false, true, 7⟩, some 0, some 0⟩,
       ⟨some ⟨0, 0, 0, false, true, 7⟩, some 0, some 0⟩]).2 = 1 := by
  have h := C3_dedup_novelty defaultCfg defaultLimits initState
    ⟨some ⟨0, 0, 0, false, true, 7⟩, some 0, some 0⟩
    ⟨some ⟨0, 0, 0, false, true, 7⟩, some 0, some 0⟩
    ⟨0, 0, 0, false, true, 7⟩ ⟨0, 0, 0, false, true, 7⟩ rfl rfl
  exact ⟨h.1.mpr ⟨rfl, Or.inl rfl⟩, h.2 rfl rfl rfl (Or.inl rfl)⟩

/-! ### C4 -/

/-- C4, amended.  From a torque-DISABLED state, the enable sequence
    false, true, true, false produces exactly one `set_torque(true)` and one
    `set_torque(false)`; but from the program's actual loop-entry state
    (`torque_enabled = true`, src line 205) the leading false produces an
    additional `set_torque(false)`, giving one on-write and two off-writes.
    Repeated identical enable values never produce a torque write. -/
theorem C4_enable_edge_amended (cfg : Config) (lim : Limits) (ls : Option ℤ)
    (i1 i2 i3 i4 : CycleInput) (c1 c2 c3 c4 : Command)
    (h1 : i1.cmd_read = some c1) (h2 : i2.cmd_read = some c2)
    (h3 : i3.cmd_read = some c3) (h4 : i4.cmd_read = some c4)
    (e1 : c1.enable = false) (e2 : c2.enable = true)
    (e3 : c3.enable = true) (e4 : c4.enable = false) :
    (torqueOnCount (runCycles cfg lim ⟨false, ls⟩ [i1, i2, i3, i4]).2 = 1 ∧
     torqueOffCount (runCycles cfg lim ⟨false, ls⟩ [i1, i2, i3, i4]).2 = 1)
    ∧ (torqueOnCount (runCycles cfg lim ⟨true, ls⟩ [i1, i2, i3, i4]).2 = 1 ∧
       torqueOffCount (runCycles cfg lim ⟨true, ls⟩ [i1, i2, i3, i4]).2 = 2)
    ∧ (∀ (st : GateState) (inp : CycleInput) (cmd : Command),
        inp.cmd_read = some cmd → cmd.enable = st.torque_enabled →
        (cycle cfg lim st inp).2.torque_writes = []) := by
  refine ⟨⟨?_, ?_⟩, ⟨?_, ?_⟩, ?_⟩
  · simp [runCycles, cycle, h1, h2, h3, h4, e1, e2, e3, e4, torqueOnCount]
  · simp [runCycles, cycle, h1, h2, h3, h4, e1, e2, e3, e4, torqueOffCount]
  · simp [runCycles, cycle, h1, h2, h3, h4, e1, e2, e3, e4, torqueOnCount]
  · simp [runCycles, cycle, h1, h2, h3, h4, e1, e2, e3, e4, torqueOffCount]
  · intro st inp cmd h he
    cases hte : st.torque_enabled <;> rw [hte] at he <;> simp [cycle, h, he, hte]

/-- C4, witness: the amended count (one on-write, one off-write) realized on a
    concrete four-cycle trace from a torque-disabled state. -/
theorem C4_enable_edge_amended_witness :
    torqueOnCount (runCycles defaultCfg defaultLimits ⟨false, none⟩
      [⟨some ⟨0, 0, 0, false, false, 1⟩, some 0, some 0⟩,
       ⟨some ⟨0, 0, 0, false, true, 2⟩, some 0, some 0⟩,
       ⟨some ⟨0, 0, 0, false, true, 3⟩, some 0, some 0⟩,
       ⟨some ⟨0, 0, 0, false, false, 4⟩, some 0, some 0⟩]).2 = 1 ∧
    torqueOffCount (runCycles defaultCfg defaultLimits ⟨false, none⟩
      [⟨some ⟨0, 0, 0, false, false, 1⟩, some 0, some 0⟩,
       ⟨some ⟨0, 0, 0, false, true, 2⟩, some 0, some 0⟩,
       ⟨some ⟨0, 0, 0, false, true, 3⟩, some 0, some 0⟩,
       ⟨some ⟨0, 0, 0, false, false, 4⟩, some 0, some 0⟩]).2 = 1 :=
  (C4_enable_edge_amended defaultCfg defaultLimits none
    ⟨some ⟨0, 0, 0, false, false, 1⟩, some 0, some 0⟩
    ⟨some ⟨0, 0, 0, false, true, 2⟩, some 0, some 0⟩
    ⟨some ⟨0, 0, 0, false, true, 3⟩, some 0, some 0⟩
    ⟨some ⟨0, 0, 0, false, false, 4⟩, some 0, some 0⟩
    ⟨0, 0, 0, false, false, 1⟩ ⟨0, 0, 0, false, true, 2⟩
    ⟨0, 0, 0, false, true, 3⟩ ⟨0, 0, 0, false, false, 4⟩
    rfl rfl rfl rfl rfl rfl rfl rfl).1

/-- C4, counterexample to the claim as stated: from the program's state at
    loop entry (`torque_enabled = true`) the sequence false, true, true, false
    produces TWO `set_torque(false)` writes, not one. -/
theorem C4_enable_edge_counterexample :
    torqueOnCount (runCycles defaultCfg defaultLimits initState
      [⟨some ⟨0, 0, 0, false, false, 1⟩, some 0, some 0⟩,
       ⟨some ⟨0, 0, 0, false, true, 2⟩, some 0, some 0⟩,
       ⟨some ⟨0, 0, 0, false, true, 3⟩, some 0, some 0⟩,
       ⟨some ⟨0, 0, 0, false, false, 4⟩, some 0, some 0⟩]).2 = 1 ∧
    torqueOffCount (runCycles defaultCfg defaultLimits initState
      [⟨some ⟨0, 0, 0, false, false, 1⟩, some 0, some 0⟩,
       ⟨some ⟨0, 0, 0, false, true, 2⟩, some 0, some 0⟩,
       ⟨some ⟨0, 0, 0, false, true, 3⟩, some 0, some 0⟩,
       ⟨some ⟨0, 0, 0, false, false, 4⟩, some 0, some 0⟩]).2 = 2 ∧
    (2 : ℕ) ≠ 1 := by
  refine ⟨?_, ?_, by decide⟩ <;>
    simp [runCycles, cycle, initState, torqueOnCount, torqueOffCount]

/-! ### C7 -/

/-- C7, amended.  Velocity- and accel-limit read failures substitute the
    configured default for that field only, leaving the other fields intact;
    but a failure of EITHER position-limit read replaces BOTH position limits
    with the fixed fallback pair (0, 4095), discarding a successfully read
    value.  When both position reads succeed the limits are swapped if
    inverted, and the result always satisfies `min_ticks ≤ max_ticks`. -/
theorem C7_discovery_amended (cfg : Config) (r : DiscoveryReads) :
    (∀ v, r.vel = some v → (discover cfg r).vel_lim = v) ∧
    (r.vel = none → (discover cfg r).vel_lim = cfg.prof_vel_default) ∧
    (∀ a, r.acc = some a → (discover cfg r).acc_lim = a) ∧
    (r.acc = none → (discover cfg r).acc_lim = cfg.prof_acc_default) ∧
    ((r.maxp = none ∨ r.minp = none) →
      (discover cfg r).min_ticks = 0 ∧ (discover cfg r).max_ticks = 4095) ∧
    (∀ mn mx, r.minp = some mn → r.maxp = some mx →
      (discover cfg r).min_ticks = min mn mx ∧ (discover cfg r).max_ticks = max mn mx) ∧
    (discover cfg r).min_ticks ≤ (discover cfg r).max_ticks := by
  obtain ⟨v, a, mp, np⟩ := r
  refine ⟨?_, ?_, ?_, ?_, ?_, ?_, ?_⟩
  · intro w hw; cases v <;> simp_all [discover]
  · intro hw; cases v <;> simp_all [discover]
  · intro w hw; cases a <;> simp_all [discover]
  · intro hw; cases a <;> simp_all [discover]
  · intro hw
    cases mp <;> cases np <;> simp_all [discover]
  · intro mn mx hmn hmx
    cases mp <;> cases np <;> simp_all [discover]
    by_cases hc : mx < mn
    · simp [hc, min_eq_right hc.le, max_eq_left hc.le]
    · simp [hc, min_eq_left (not_lt.mp hc), max_eq_right (not_lt.mp hc)]
  · cases mp with
    | none => cases np <;> simp [discover]
    | some mx =>
      cases np with
      | none => simp [discover]
      | some mn =>
        by_cases hc : mx < mn
        · simp [discover, hc]; omega
        · simp [discover, hc]; omega

/-- C7, witness: a failed velocity read falls back to the default while the
    successfully read accel limit is kept, and inverted position limits are
    swapped. -/
theorem C7_discovery_amended_witness :
    (discover defaultCfg ⟨none, some 9, some 4000, some 4200⟩).vel_lim = 50000 ∧
    (discover defaultCfg ⟨none, some 9, some 4000, some 4200⟩).acc_lim = 9 ∧
    (discover defaultCfg ⟨none, some 9, some 4000, some 4200⟩).min_ticks = 4000 ∧
    (discover defaultCfg ⟨none, some 9, some 4000, some 4200⟩).max_ticks = 4200 := by
  have h := C7_discovery_amended defaultCfg ⟨none, some 9, some 4000, some 4200⟩
  refine ⟨?_, h.2.2.1 9 rfl, ?_, ?_⟩
  · rw [h.2.1 rfl]; rfl
  · have hm := (h.2.2.2.2.2.1 4200 4000 rfl rfl).1
    rw [hm]; omega
  · have hM := (h.2.2.2.2.2.1 4200 4000 rfl rfl).2
    rw [hM]; omega

/-- C7, counterexample to the claim as stated: when the max-position read
    fails but the min-position read succeeds (returning 100), the successful
    min value is discarded and replaced by 0 — the default is not substituted
    for the failed field only. -/
theorem C7_discovery_counterexample :
    (discover defaultCfg ⟨some 7, some 9, none, some 100⟩).min_ticks = 0 ∧
    (discover defaultCfg ⟨some 7, some 9, none, some 100⟩).max_ticks = 4095 ∧
    DiscoveryReads.minp ⟨some 7, some 9, none, some 100⟩ = some 100 ∧
    (0 : ℤ) ≠ 100 := by
  refine ⟨?_, ?_, rfl, by decide⟩ <;> simp [discover]

/-! ### C8 -/

/-- C8, amended.  The bridge has no reconnect path: the command-source read
    failure handler substitutes a zero buffer and continues, and nothing ever
    resets the session state — once `last_seq` is set it never returns to
    `none` over any trace, so a sequence applied earlier is NOT treated as
    novel again: observing a command whose sequence equals `last_seq` applies
    nothing. -/
theorem C8_gate_reset_amended (cfg : Config) (lim : Limits) :
    (∀ (st : GateState) (inputs : List CycleInput),
      st.last_seq ≠ none → (runCycles cfg lim st inputs).1.last_seq ≠ none) ∧
    (∀ (st : GateState) (inp : CycleInput) (cmd : Command),
      inp.cmd_read = some cmd → st.last_seq = some cmd.seq →
      (cycle cfg lim st inp).2.applied = none) := by
  constructor
  · intro st inputs
    induction inputs generalizing st with
    | nil => intro h; simpa [runCycles] using h
    | cons i rest ih =>
      intro h
      have h' : (cycle cfg lim st i).1.last_seq ≠ none := by
        rcases cycle_last_keep cfg lim st i with hk | hk
        · rw [hk]; simp
        · rw [hk]; exact h
      simpa [runCycles] using ih (cycle cfg lim st i).1 h'
  · intro st inp cmd h hls
    simp [cycle, h, hls]

/-- C8, witness: a state with an applied sequence keeps a non-`none`
    `last_seq` across a cycle, and re-offering the same sequence applies
    nothing. -/
theorem C8_gate_reset_amended_witness :
    (runCycles defaultCfg defaultLimits ⟨true, some 3⟩
      [⟨some ⟨0, 0, 0, false, true, 3⟩, some 0, some 0⟩]).1.last_seq ≠ none ∧
    (cycle defaultCfg defaultLimits ⟨true, some 3⟩
      ⟨some ⟨0, 0, 0, false, true, 3⟩, some 0, some 0⟩).2.applied = none := by
  have h := C8_gate_reset_amended defaultCfg defaultLimits
  exact ⟨h.1 ⟨true, some 3⟩ [⟨some ⟨0, 0, 0, false, true, 3⟩, some 0, some 0⟩] (by simp),
         h.2 ⟨true, some 3⟩ ⟨some ⟨0, 0, 0, false, true, 3⟩, some 0, some 0⟩
           ⟨0, 0, 0, false, true, 3⟩ rfl rfl⟩

/-- C8, counterexample to the claim as stated: after applying sequence 5, a
    command-read failure (the closest event to a disconnect) followed by a
    successful read of the same sequence yields only ONE goal write in total
    and leaves `last_seq = some 5` — the sequence is not treated as novel
    again and the gate state is never reset to `none`. -/
theorem C8_gate_reset_counterexample :
    goalWriteCount (runCycles defaultCfg defaultLimits initState
      [⟨some ⟨500, 0, 0, false, true, 5⟩, some 0, some 0⟩,
       ⟨none, some 0, some 0⟩,
       ⟨some ⟨500, 0, 0, false, true, 5⟩, some 0, some 0⟩]).2 = 1 ∧
    (runCycles defaultCfg defaultLimits initState
      [⟨some ⟨500, 0, 0, false, true, 5⟩, some 0, some 0⟩,
       ⟨none, some 0, some 0⟩,
       ⟨some ⟨500, 0, 0, false, true, 5⟩, some 0, some 0⟩]).1.last_seq = some 5 ∧
    (runCycles defaultCfg defaultLimits initState
      [⟨some ⟨500, 0, 0, false, true, 5⟩, some 0, some 0⟩,
       ⟨none, some 0, some 0⟩,
       ⟨some ⟨500, 0, 0, false, true, 5⟩, some 0, some 0⟩]).1.last_seq ≠ none := by
  refine ⟨?_, ?_, ?_⟩ <;> simp [runCycles, cycle, goalWriteCount, zeroCommand, initState]

/-! ### Evaluation lemmas for the feedback normalizer at concrete inputs -/

theorem normalizeVel_zero (lim : Limits) : normalizeVel lim 0 = 0 := by
  unfold normalizeVel
  have e1 : ((|(0:ℤ)| : ℤ):ℚ) / ((max 1 lim.vel_lim : ℤ):ℚ) * 1000 = 0 := by
    simp
  rw [e1]
  have e2 : pyRound 0 = 0 := pyRound_eval_lo (by norm_num) (by norm_num)
  rw [e2]
  exact clamp_eq_self (by decide) (by decide)

theorem normalizePos_default_2500 : normalizePos defaultCfg false 2500 = 438 := by
  unfold normalizePos posFrac tick_to_deg
  have e0 : ((2500 : ℤ) % 4096 : ℤ) = 2500 := by decide
  rw [e0]
  have hlt : sw_min defaultCfg < sw_max defaultCfg := by
    unfold sw_min sw_max defaultCfg; norm_num
  rw [if_pos hlt]
  have hm : sw_min defaultCfg = 200 := by unfold sw_min defaultCfg; norm_num
  have hM : sw_max defaultCfg = 245 := by unfold sw_max defaultCfg; norm_num
  rw [hm, hM]
  have e1 : (((2500 : ℤ) : ℚ) * 360 / 4096) = 28125/128 := by norm_num
  rw [e1]
  have e2 : clamp (28125/128 : ℚ) 200 245 = 28125/128 := by
    rw [clamp_eq_self] <;> norm_num
  rw [e2]
  have e3 : ((28125/128 : ℚ) - 200) / (245 - 200) * 1000 = 63125/144 := by norm_num
  simp only [Bool.false_eq_true, if_false]
  rw [e3]
  have e4 : pyRound (63125/144 : ℚ) = 438 :=
    pyRound_eval_lo (by norm_num) (by norm_num)
  rw [e4]
  exact clamp_eq_self (by decide) (by decide)

theorem normalizePos_default_zero : normalizePos defaultCfg false 0 = 0 := by
  unfold normalizePos posFrac tick_to_deg
  have e0 : ((0 : ℤ) % 4096 : ℤ) = 0 := by decide
  rw [e0]
  have hlt : sw_min defaultCfg < sw_max defaultCfg := by
    unfold sw_min sw_max defaultCfg; norm_num
  rw [if_pos hlt]
  have hm : sw_min defaultCfg = 200 := by unfold sw_min defaultCfg; norm_num
  have hM : sw_max defaultCfg = 245 := by unfold sw_max defaultCfg; norm_num
  rw [hm, hM]
  have e1 : (((0 : ℤ) : ℚ) * 360 / 4096) = 0 := by norm_num
  rw [e1]
  have e2 : clamp (0 : ℚ) 200 245 = 200 := by
    unfold clamp; rw [if_pos (by norm_num)]
  rw [e2]
  have e3 : ((200 : ℚ) - 200) / (245 - 200) * 1000 = 0 := by norm_num
  simp only [Bool.false_eq_true, if_false]
  rw [e3]
  have e4 : pyRound (0 : ℚ) = 0 := pyRound_eval_lo (by norm_num) (by norm_num)
  rw [e4]
  exact clamp_eq_self (by decide) (by decide)

theorem normalizeVel_default_100 : normalizeVel defaultLimits 100 = 2 := by
  unfold normalizeVel
  have e1 : ((|(100:ℤ)| : ℤ):ℚ) / ((max 1 defaultLimits.vel_lim : ℤ):ℚ) * 1000 = 2 := by
    have h : (max 1 defaultLimits.vel_lim : ℤ) = 50000 := by
      unfold defaultLimits; decide
    rw [h]
    norm_num
  rw [e1]
  have e2 : pyRound (2 : ℚ) = 2 := pyRound_eval_lo (by norm_num) (by norm_num)
  rw [e2]
  exact clamp_eq_self (by decide) (by decide)

/-! ### C2 -/

/-- C2, amended.  When the feedback reads fail, the raw values are replaced by
    ZERO (src lines 261-266), not by the last-known-good values: the velocity
    feedback written to the status sink is 0, the position feedback is the
    normalization of tick 0, and `hw_ok` goes false.  There is no
    last-known-good state in the program. -/
theorem C2_fb_fail_amended (cfg : Config) (lim : Limits) (st : GateState)
    (inp : CycleInput) (hp : inp.pos_read = none) (hv : inp.vel_read = none) :
    (cycle cfg lim st inp).2.vel_fb_scaled = 0 ∧
    (cycle cfg lim st inp).2.jaw_pos_fb =
      normalizePos cfg (inp.cmd_read.getD zeroCommand).invert 0 ∧
    (cycle cfg lim st inp).2.hw_ok = false := by
  refine ⟨?_, ?_, ?_⟩
  · simp [cycle, hp, hv, normalizeVel_zero]
  · simp [cycle, hp, hv]
  · simp [cycle, hp, hv]

/-- C2, witness: the amended theorem applied to a concrete cycle whose two
    feedback reads fail. -/
theorem C2_fb_fail_amended_witness :
    (cycle defaultCfg defaultLimits initState
      ⟨some ⟨500, 100, 100, false, true, 1⟩, none, none⟩).2.vel_fb_scaled = 0 ∧
    (cycle defaultCfg defaultLimits initState
      ⟨some ⟨500, 100, 100, false, true, 1⟩, none, none⟩).2.jaw_pos_fb =
      normalizePos defaultCfg false 0 ∧
    (cycle defaultCfg defaultLimits initState
      ⟨some ⟨500, 100, 100, false, true, 1⟩, none, none⟩).2.hw_ok = false := by
  have h := C2_fb_fail_amended defaultCfg defaultLimits initState
    ⟨some ⟨500, 100, 100, false, true, 1⟩, none, none⟩ rfl rfl
  simpa using h

/-- C2, counterexample to the claim as stated: after a successful cycle that
    reported position 438 and velocity 2, a cycle with failed feedback reads
    reports (0, 0) — zero, not the last-known-good values. -/
theorem C2_fb_fail_counterexample :
    (runCycles defaultCfg defaultLimits initState
      [⟨some ⟨500, 100, 100, false, true, 1⟩, some 2500, some 100⟩,
       ⟨some ⟨500, 100, 100, false, true, 1⟩, none, none⟩]).2.map
        (fun o => (o.jaw_pos_fb, o.vel_fb_scaled)) = [(438, 2), (0, 0)] ∧
    ((0 : ℤ) ≠ 438) ∧ ((0 : ℤ) ≠ 2) := by
  refine ⟨?_, by decide, by decide⟩
  simp [runCycles, cycle, initState, normalizePos_default_2500,
    normalizePos_default_zero, normalizeVel_default_100, normalizeVel_zero]

/-! ### C5 -/

/-- C5, amended.  The goal position is exactly as the claim states it
    (round of the modulo-360 degree interpolation scaled by ticks-per-rev/360,
    clamped into the position limits, with `u` replaced by `1 - u` under
    invert); but the profile velocity and acceleration are the integer
    TRUNCATION of `floor + u * (hw_limit - floor)`, then clamped into
    `[floor, hw_limit]` — the code applies `int(...)` before clamping. -/
theorem C5_scaling_amended (cfg : Config) (lim : Limits) (cmd : Command) :
    (scaleCmd cfg lim cmd).goal_ticks = specGoalTicks cfg lim cmd ∧
    (scaleCmd cfg lim cmd).prof_vel =
      clamp (pyInt (specLinear cfg.vel_floor lim.vel_lim cmd.vel_sp))
        cfg.vel_floor lim.vel_lim ∧
    (scaleCmd cfg lim cmd).prof_acc =
      clamp (pyInt (specLinear cfg.acc_floor lim.acc_lim cmd.acc_sp))
        cfg.acc_floor lim.acc_lim := by
  have hcast : ∀ x : ℤ, ((clamp x 0 1000 : ℤ) : ℚ) = clamp (x:ℚ) 0 1000 := by
    intro x
    rw [clamp_intCast]
    norm_num
  refine ⟨?_, ?_, ?_⟩
  · unfold scaleCmd specGoalTicks
    cases hi : cmd.invert <;> simp [hi, hcast, deg_to_tick]
  · unfold scaleCmd specLinear
    simp [hcast]
  · unfold scaleCmd specLinear
    simp [hcast]

/-- C5, counterexample to the profile formula as stated: with the default
    floor 1 and limit 50000, setpoint 500 interpolates to 25000.5; the code
    produces 25000 (truncation), while the claimed clamped linear formula
    keeps the value 25000.5. -/
theorem C5_scaling_counterexample :
    (scaleCmd defaultCfg defaultLimits ⟨500, 500, 500, false, true, 1⟩).prof_vel = 25000 ∧
    specProfileVal 1 50000 500 = 50001/2 ∧
    ((25000 : ℚ) ≠ 50001/2) := by
  refine ⟨?_, ?_, by norm_num⟩
  · show clamp (pyInt (((1:ℤ):ℚ) + ((clamp (500:ℤ) 0 1000 : ℤ):ℚ)/1000
      * (((50000:ℤ):ℚ) - ((1:ℤ):ℚ)))) 1 50000 = 25000
    have e1 : clamp (500:ℤ) 0 1000 = 500 := clamp_eq_self (by decide) (by decide)
    rw [e1]
    have e2 : ((1:ℤ):ℚ) + ((500:ℤ):ℚ)/1000 * (((50000:ℤ):ℚ) - ((1:ℤ):ℚ)) = 50001/2 := by
      push_cast; norm_num
    rw [e2]
    have e3 : pyInt (50001/2 : ℚ) = 25000 :=
      pyInt_eval (by decide) (by norm_num) (by norm_num)
    rw [e3]
    exact clamp_eq_self (by decide) (by decide)
  · unfold specProfileVal specLinear
    have e1 : clamp (((500:ℤ):ℚ)) 0 1000 = 500 := by
      rw [clamp_eq_self] <;> norm_num
    rw [e1]
    have e2 : ((1:ℤ):ℚ) + (500:ℚ)/1000 * (((50000:ℤ):ℚ) - ((1:ℤ):ℚ)) = 50001/2 := by
      push_cast; norm_num
    rw [e2]
    rw [clamp_eq_self] <;> push_cast <;> norm_num

/-! ### C6 -/

/-- C6.  Scaling a command whose setpoints lie anywhere (including outside
    [0,1000]) produces exactly the same actuator target as scaling the command
    with the setpoints clamped into [0,1000] first; the scaler is total, so no
    out-of-range input can fail. -/
theorem C6_clamp_idempotence (cfg : Config) (lim : Limits) (cmd : Command) :
    scaleCmd cfg lim cmd =
      scaleCmd cfg lim ⟨clamp cmd.pos_sp 0 1000, clamp cmd.vel_sp 0 1000,
        clamp cmd.acc_sp 0 1000, cmd.invert, cmd.enable, cmd.seq⟩ := by
  have hp : clamp (clamp cmd.pos_sp 0 1000) 0 1000 = clamp cmd.pos_sp 0 1000 :=
    clamp_clamp _ _ _ (by decide)
  have hv : clamp (clamp cmd.vel_sp 0 1000) 0 1000 = clamp cmd.vel_sp 0 1000 :=
    clamp_clamp _ _ _ (by decide)
  have ha : clamp (clamp cmd.acc_sp 0 1000) 0 1000 = clamp cmd.acc_sp 0 1000 :=
    clamp_clamp _ _ _ (by decide)
  simp only [scaleCmd, hp, hv, ha]

/-! ### C10 -/

/-- C10.  The per-cycle feedback normalization is total and in range for every
    configuration and every feedback value: the velocity divisor
    `max(1, vel_lim)` is at least 1 (so `vel_lim = 0` cannot divide by zero),
    both outputs always land in [0,1000], and for a degenerate software range
    the position fraction is defined to be 0 instead of dividing by zero. -/
theorem C10_normalizer_total (cfg : Config) (lim : Limits) (raw t : ℤ) (inv : Bool) :
    (1 : ℤ) ≤ max 1 lim.vel_lim ∧
    0 ≤ normalizeVel lim raw ∧ normalizeVel lim raw ≤ 1000 ∧
    0 ≤ normalizePos cfg inv t ∧ normalizePos cfg inv t ≤ 1000 ∧
    (sw_min cfg = sw_max cfg → posFrac cfg (tick_to_deg t) = 0) := by
  refine ⟨le_max_left 1 _, ?_, ?_, ?_, ?_, ?_⟩
  · unfold normalizeVel; exact le_clamp _ (by decide)
  · unfold normalizeVel; exact clamp_le _ (by decide)
  · unfold normalizePos; exact le_clamp _ (by decide)
  · unfold normalizePos; exact clamp_le _ (by decide)
  · intro h
    unfold posFrac
    rw [if_neg (by rw [h]; exact lt_irrefl _)]

/-- C10, witness: the totality theorem at concrete inputs, including a
    degenerate software range (220..220) where the position fraction is 0. -/
theorem C10_normalizer_total_witness :
    (1 : ℤ) ≤ max 1 defaultLimits.vel_lim ∧
    0 ≤ normalizeVel defaultLimits 100 ∧ normalizeVel defaultLimits 100 ≤ 1000 ∧
    0 ≤ normalizePos defaultCfg false 2500 ∧ normalizePos defaultCfg false 2500 ≤ 1000 ∧
    posFrac (Config.mk 220 220 1 1 50000 30000) (tick_to_deg 500) = 0 := by
  refine ⟨(C10_normalizer_total defaultCfg defaultLimits 100 2500 false).1,
    (C10_normalizer_total defaultCfg defaultLimits 100 2500 false).2.1,
    (C10_normalizer_total defaultCfg defaultLimits 100 2500 false).2.2.1,
    (C10_normalizer_total defaultCfg defaultLimits 100 2500 false).2.2.2.1,
    (C10_normalizer_total defaultCfg defaultLimits 100 2500 false).2.2.2.2.1,
    (C10_normalizer_total (Config.mk 220 220 1 1 50000 30000) defaultLimits 100 500
      false).2.2.2.2.2 ?_⟩
  unfold sw_min sw_max
  simp

theorem scale_goal_formula (cfg : Config) (lim : Limits) (cmd : Command)
    (hinv : cmd.invert = true) (h0 : 0 ≤ cmd.pos_sp) (h1 : cmd.pos_sp ≤ 1000) :
    (scaleCmd cfg lim cmd).goal_ticks =
      clamp (deg_to_tick (sw_min cfg + (1 - (cmd.pos_sp : ℚ)/1000) * (sw_max cfg - sw_min cfg)))
        lim.min_ticks lim.max_ticks := by
  unfold scaleCmd
  rw [clamp_eq_self h0 h1]
  simp [hinv]

theorem deg_to_tick_in_range {d : ℚ} (h0 : 0 ≤ d) (h1 : d < 360) :
    deg_to_tick d = pyRound (d * (4096/360)) := by
  unfold deg_to_tick
  rw [qmod_eq_self (by norm_num) h0 h1]

theorem normalizePos_inv_formula (cfg : Config) (t : ℤ) (hR : sw_min cfg < sw_max cfg)
    (h0 : 0 ≤ t) (h1 : t < 4096) :
    normalizePos cfg true t =
      clamp (pyRound ((1 - (clamp ((t : ℚ) * 360 / 4096) (sw_min cfg) (sw_max cfg)
          - sw_min cfg) / (sw_max cfg - sw_min cfg)) * 1000)) 0 1000 := by
  unfold normalizePos posFrac tick_to_deg
  rw [Int.emod_eq_of_lt h0 h1, if_pos hR]
  simp

/-! ### C9 -/

/-- C9, amended.  The invert round trip holds once the configuration is
    restricted so that no wrap-around or hardware clamping interferes: for a
    command with `position_sp` in [0,1000] and invert set, if the software
    range is non-degenerate, lies within [0,360) degrees, and its tick image
    (with a half-tick margin) lies inside the hardware position limits (which
    themselves lie in [0,4095]), then scaling to goal ticks and normalizing
    those same ticks back through the feedback path with invert set reproduces
    `position_sp` within the position quantization error of the tick
    conversion. -/
theorem C9_invert_symmetry_amended (cfg : Config) (lim : Limits) (cmd : Command)
    (hinv : cmd.invert = true)
    (h0 : 0 ≤ cmd.pos_sp) (h1 : cmd.pos_sp ≤ 1000)
    (hm0 : 0 ≤ sw_min cfg) (hR : sw_min cfg < sw_max cfg) (h360 : sw_max cfg < 360)
    (hlo : 0 ≤ lim.min_ticks) (hhi : lim.max_ticks ≤ 4095)
    (hnc1 : (lim.min_ticks : ℚ) ≤ sw_min cfg * (4096/360) - 1/2)
    (hnc2 : sw_max cfg * (4096/360) + 1/2 ≤ (lim.max_ticks : ℚ)) :
    |((normalizePos cfg true (scaleCmd cfg lim cmd).goal_ticks : ℤ) : ℚ) - (cmd.pos_sp : ℚ)|
      ≤ posQuantErr cfg := by
  have hMm : (0:ℚ) < sw_max cfg - sw_min cfg := sub_pos.mpr hR
  have hMmne : sw_max cfg - sw_min cfg ≠ 0 := ne_of_gt hMm
  have hu0 : (0:ℚ) ≤ (cmd.pos_sp : ℚ) / 1000 :=
    div_nonneg (by exact_mod_cast h0) (by norm_num)
  have hu1 : (cmd.pos_sp : ℚ) / 1000 ≤ 1 := by
    rw [div_le_one (by norm_num)]
    exact_mod_cast h1
  have hdeg_lo : sw_min cfg ≤
      sw_min cfg + (1 - (cmd.pos_sp : ℚ)/1000) * (sw_max cfg - sw_min cfg) := by
    linarith [mul_nonneg (sub_nonneg.mpr hu1) hMm.le]
  have hdeg_hi : sw_min cfg + (1 - (cmd.pos_sp : ℚ)/1000) * (sw_max cfg - sw_min cfg)
      ≤ sw_max cfg := by
    have h := mul_le_mul_of_nonneg_right
      (show (1:ℚ) - (cmd.pos_sp : ℚ)/1000 ≤ 1 by linarith) hMm.le
    linarith
  have hdeg0 : (0:ℚ) ≤
      sw_min cfg + (1 - (cmd.pos_sp : ℚ)/1000) * (sw_max cfg - sw_min cfg) :=
    le_trans hm0 hdeg_lo
  have hdeg360 : sw_min cfg + (1 - (cmd.pos_sp : ℚ)/1000) * (sw_max cfg - sw_min cfg)
      < 360 := lt_of_le_of_lt hdeg_hi h360
  set deg : ℚ := sw_min cfg + (1 - (cmd.pos_sp : ℚ)/1000) * (sw_max cfg - sw_min cfg)
    with hdeg_def
  set t : ℤ := pyRound (deg * (4096/360)) with ht_def
  have habs : |(t:ℚ) - deg * (4096/360)| ≤ 1/2 := pyRound_sub_le _
  have ht_loQ : (lim.min_ticks : ℚ) ≤ (t:ℚ) := by
    have hx : sw_min cfg * (4096/360) ≤ deg * (4096/360) :=
      mul_le_mul_of_nonneg_right hdeg_lo (by norm_num)
    have h2 := (abs_le.mp habs).1
    linarith
  have ht_hiQ : (t:ℚ) ≤ (lim.max_ticks : ℚ) := by
    have hx : deg * (4096/360) ≤ sw_max cfg * (4096/360) :=
      mul_le_mul_of_nonneg_right hdeg_hi (by norm_num)
    have h2 := (abs_le.mp habs).2
    linarith
  have ht_lo : lim.min_ticks ≤ t := by exact_mod_cast ht_loQ
  have ht_hi : t ≤ lim.max_ticks := by exact_mod_cast ht_hiQ
  have hgoal : (scaleCmd cfg lim cmd).goal_ticks = t := by
    rw [scale_goal_formula cfg lim cmd hinv h0 h1]
    rw [← hdeg_def]
    rw [deg_to_tick_in_range hdeg0 hdeg360]
    rw [← ht_def]
    exact clamp_eq_self ht_lo ht_hi
  rw [hgoal]
  rw [normalizePos_inv_formula cfg t hR (le_trans hlo ht_lo) (by omega)]
  set c : ℚ := clamp ((t:ℚ) * 360 / 4096) (sw_min cfg) (sw_max cfg) with hc_def
  set val : ℚ := (1 - (c - sw_min cfg) / (sw_max cfg - sw_min cfg)) * 1000 with hval_def
  have hd' : |(t:ℚ) * 360 / 4096 - deg| ≤ 45/1024 := by
    have key : (t:ℚ) * 360 / 4096 - deg = ((t:ℚ) - deg * (4096/360)) * (360/4096) := by
      field_simp
      ring
    rw [key, abs_mul]
    have habs2 : |((360:ℚ)/4096)| = 360/4096 := by
      rw [abs_of_pos]
      norm_num
    rw [habs2]
    calc |(t:ℚ) - deg * (4096/360)| * (360/4096)
        ≤ (1/2) * (360/4096) := mul_le_mul_of_nonneg_right habs (by norm_num)
      _ = 45/1024 := by norm_num
  have hcb : |c - deg| ≤ 45/1024 := by
    rw [hc_def]
    exact le_trans (clamp_dist _ hdeg_lo hdeg_hi) hd'
  have hval_eq : val - (cmd.pos_sp : ℚ)
      = (deg - c) * 1000 / (sw_max cfg - sw_min cfg) := by
    rw [hval_def, hdeg_def]
    field_simp
    ring
  have hvb : |val - (cmd.pos_sp : ℚ)| ≤ 5625/128 / (sw_max cfg - sw_min cfg) := by
    rw [hval_eq, abs_div, abs_of_pos hMm, abs_mul]
    have h1000 : |(1000:ℚ)| = 1000 := by norm_num
    rw [h1000]
    apply (div_le_div_right hMm).mpr
    have hdc : |deg - c| ≤ 45/1024 := by
      rw [abs_sub_comm]
      exact hcb
    calc |deg - c| * 1000 ≤ (45/1024) * 1000 :=
          mul_le_mul_of_nonneg_right hdc (by norm_num)
      _ = 5625/128 := by norm_num
  have hr : |((pyRound val : ℤ):ℚ) - val| ≤ 1/2 := pyRound_sub_le val
  have htri : |((pyRound val : ℤ):ℚ) - (cmd.pos_sp : ℚ)|
      ≤ 5625/128 / (sw_max cfg - sw_min cfg) + 1/2 := by
    have h := abs_sub_le ((pyRound val : ℤ):ℚ) val ((cmd.pos_sp : ℚ))
    linarith
  have hcast : ((clamp (pyRound val) 0 1000 : ℤ):ℚ)
      = clamp ((pyRound val : ℤ):ℚ) 0 1000 := by
    rw [clamp_intCast]
    norm_num
  rw [hcast]
  have hsp0 : (0:ℚ) ≤ (cmd.pos_sp : ℚ) := by exact_mod_cast h0
  have hsp1 : (cmd.pos_sp : ℚ) ≤ 1000 := by exact_mod_cast h1
  have hcd := clamp_dist ((pyRound val : ℤ):ℚ) hsp0 hsp1
  have hq : posQuantErr cfg = 5625/128 / (sw_max cfg - sw_min cfg) + 1/2 := by
    unfold posQuantErr
    norm_num
  rw [hq]
  exact le_trans hcd htri

/-- C9, witness: the amended round-trip bound at the default configuration
    (software range 200..245, hardware limits 0..4095) with setpoint 250. -/
theorem C9_invert_symmetry_amended_witness :
    |((normalizePos defaultCfg true
        (scaleCmd defaultCfg defaultLimits ⟨250, 0, 0, true, true, 1⟩).goal_ticks : ℤ) : ℚ)
      - ((250 : ℤ) : ℚ)| ≤ posQuantErr defaultCfg := by
  have hm : sw_min defaultCfg = 200 := by
    unfold sw_min defaultCfg
    exact min_eq_left (by norm_num)
  have hM : sw_max defaultCfg = 245 := by
    unfold sw_max defaultCfg
    exact max_eq_right (by norm_num)
  exact C9_invert_symmetry_amended defaultCfg defaultLimits ⟨250, 0, 0, true, true, 1⟩ rfl (by decide) (by decide)
    (by rw [hm]; norm_num) (by rw [hm, hM]; norm_num) (by rw [hM]; norm_num)
    (by decide) (by decide)
    (by rw [hm]; norm_num [defaultLimits]) (by rw [hM]; norm_num [defaultLimits])

/-- C9, counterexample to the claim as stated: with the software range
    350..370 degrees (non-degenerate, as the claim requires) and setpoint 0
    with invert, the forward path wraps through the modulo-360 mapping to tick
    114, whose feedback normalization clamps to the range minimum and returns
    1000 — an error of 1000, far beyond the quantization error. -/
theorem C9_invert_symmetry_counterexample :
    normalizePos (Config.mk 350 370 1 1 50000 30000) true
      (scaleCmd (Config.mk 350 370 1 1 50000 30000) defaultLimits
        ⟨0, 0, 0, true, true, 1⟩).goal_ticks = 1000 ∧
    Command.pos_sp ⟨0, 0, 0, true, true, 1⟩ = 0 ∧
    sw_min (Config.mk 350 370 1 1 50000 30000) < sw_max (Config.mk 350 370 1 1 50000 30000) ∧
    ¬ (|((1000 : ℤ) : ℚ) - ((0 : ℤ) : ℚ)| ≤ posQuantErr (Config.mk 350 370 1 1 50000 30000)) := by
  have hm : sw_min (Config.mk 350 370 1 1 50000 30000) = 350 := by
    unfold sw_min
    exact min_eq_left (by norm_num)
  have hM : sw_max (Config.mk 350 370 1 1 50000 30000) = 370 := by
    unfold sw_max
    exact max_eq_right (by norm_num)
  have hgoal : (scaleCmd (Config.mk 350 370 1 1 50000 30000) defaultLimits
      ⟨0, 0, 0, true, true, 1⟩).goal_ticks = 114 := by
    show clamp (deg_to_tick (sw_min (Config.mk 350 370 1 1 50000 30000)
      + (1 - ((clamp ((0:ℤ)) 0 1000 : ℤ) : ℚ)/1000)
        * (sw_max (Config.mk 350 370 1 1 50000 30000)
          - sw_min (Config.mk 350 370 1 1 50000 30000)))) 0 4095 = 114
    rw [hm, hM]
    have e0 : clamp ((0:ℤ)) 0 1000 = 0 := clamp_eq_self (by decide) (by decide)
    rw [e0]
    have e1 : (350:ℚ) + (1 - ((0:ℤ):ℚ)/1000) * (370 - 350) = 370 := by push_cast; ring
    rw [e1]
    unfold deg_to_tick
    have e2 : qmod 370 360 = 10 := by
      have h := qmod_shift (a := (370:ℚ)) (b := 360) (by norm_num) (by norm_num) (by norm_num)
      rw [h]
      norm_num
    rw [e2]
    have e3 : (10:ℚ) * (4096/360) = 1024/9 := by norm_num
    rw [e3]
    have e4 : pyRound ((1024:ℚ)/9) = 114 := by
      have h := pyRound_eval_hi (n := 113) (q := (1024:ℚ)/9) (by norm_num) (by norm_num)
      rw [h]
      norm_num
    rw [e4]
    exact clamp_eq_self (by decide) (by decide)
  refine ⟨?_, rfl, by rw [hm, hM]; norm_num, ?_⟩
  · rw [hgoal]
    rw [normalizePos_inv_formula (Config.mk 350 370 1 1 50000 30000) 114
      (by rw [hm, hM]; norm_num) (by decide) (by decide)]
    rw [hm, hM]
    have e1 : (((114 : ℤ) : ℚ) * 360 / 4096) = 2565/256 := by norm_num
    rw [e1]
    have e2 : clamp ((2565:ℚ)/256) 350 370 = 350 := by
      unfold clamp
      rw [if_pos (by norm_num)]
    rw [e2]
    have e3 : ((1:ℚ) - (350 - 350) / (370 - 350)) * 1000 = 1000 := by norm_num
    rw [e3]
    have e4 : pyRound ((1000:ℚ)) = 1000 := pyRound_eval_lo (by norm_num) (by norm_num)
    rw [e4]
    exact clamp_eq_self (by decide) (by decide)
  · unfold posQuantErr
    rw [hm, hM]
    push_cast
    norm_num
